import Mathlib

/-!
# Verification of the `sim_tools/sim.py` control-loop simulator

Shallow embedding of the discrete-time control-loop simulator of
`sim_tools/sim.py` (repository `eschneider1992/sim-control-projects`).
Python floats are modelled as exact rationals (`ℚ`); the NumPy random
stream is modelled as an abstract stream `ℕ → ℚ` of draws together with a
counter of how many draws were consumed.  The plant module (`plant.py`) is
not part of the embedded source; the loop only uses a plant through the
capability contract `update`/`sensable_state`, so plants are a parameter
of the embedding.  The controller class `PIDArduino` lives in
`controller.py`, which is also not among the embedded sources; it is
modelled from the specification (see `PIDArduino` below).
-/

namespace SimTools

/-- Python 3 `round` on an exact rational: round half to even
(banker's rounding), as used in `sim.py` line 22. -/
def pyRound (q : ℚ) : ℤ :=
  if q - (⌊q⌋ : ℚ) < 1/2 then ⌊q⌋
  else if (1:ℚ)/2 < q - (⌊q⌋ : ℚ) then ⌊q⌋ + 1
  else if ⌊q⌋ % 2 = 0 then ⌊q⌋ else ⌊q⌋ + 1

/-- Result of Python's `ast.literal_eval` on a user-supplied string, as far
as the asserts of `sim.py` lines 27-30 inspect it: either a dict (whose
entries the plant constructor consumes) or some non-dict literal. -/
inductive PyLiteral where
  | dict (entries : List (String × ℚ))
  | num (q : ℚ)
  | str (s : String)
deriving DecidableEq

/-- `isinstance(x, dict)` for a parsed literal. -/
def PyLiteral.isDict : PyLiteral → Bool
  | .dict _ => true
  | _ => false

/-- The argparse namespace consumed by `simulate_system` (field names follow
the CLI flags of `sim.py`, including the `supress_output` spelling). -/
structure Args where
  plant : String
  pid : ℚ × ℚ × ℚ
  setpoint : ℚ
  supress_output : Bool
  interval : ℚ
  delay : ℚ
  sampletime : ℚ
  out_min : ℚ
  out_max : ℚ
  sensor_noise_std_dev : ℚ
  output_rate_limit : ℚ
  constant_values : PyLiteral
  initial_values : PyLiteral

/-- `sim.py` line 22: `delayed_samples_len = max(1, round(args.delay / args.sampletime))`. -/
def delayedSamplesLen (args : Args) : ℤ :=
  max 1 (pyRound (args.delay / args.sampletime))

/-- The plant capability contract (`update(command, duration)` plus the pure
read `sensable_state`); `plant.py` variants are opaque to the loop. -/
structure Plant (σ : Type) where
  update : σ → ℚ → ℚ → σ
  sensable : σ → ℚ

/-- A controller as the loop uses it: `calc` consumes the controller state,
the current time (the source reads it through the captured `timestamp`
closure), the sensed input, the setpoint and the max allowable change, and
returns the commanded output together with the updated controller state. -/
structure Controller (κ : Type) where
  calcFn : κ → ℚ → ℚ → ℚ → ℚ → ℚ × κ

/-- `collections.deque(maxlen=n).append(v)` on the list of current contents
(front of the list = oldest element = `deque[0]`): append on the right and
evict from the left when the capacity is exceeded. -/
def dequeAppend (maxlen : ℕ) (buf : List ℚ) (v : ℚ) : List ℚ :=
  (buf ++ [v]).drop (buf.length + 1 - maxlen)

/-- The mutable state of one run of `simulate_system`: the plant, the
controller, the `delayed_states` deque and the four recorded time series.
`sensedInputs` and `noises` are instrumentation: they record, per tick, the
`sensor_state` value handed to the controller branch (line 69) and the
`sensor_noise` drawn (lines 64-68).  `rngCalls` counts NumPy RNG draws. -/
structure SimState (σ κ : Type) where
  plantState : σ
  ctrlState : κ
  delayed : List ℚ
  timestamps : List ℚ
  plant_states : List ℚ
  sensor_states : List ℚ
  outputs : List ℚ
  sensedInputs : List ℚ
  noises : List ℚ
  rngCalls : ℕ

/-- Lines 64-68: `sensor_noise` is 0 when the configured standard deviation
is not positive, else a scaled draw from the RNG stream. -/
def tickNoise (args : Args) (rng : ℕ → ℚ) (s : SimState σ κ) : ℚ :=
  if args.sensor_noise_std_dev ≤ 0 then 0
  else args.sensor_noise_std_dev * rng s.rngCalls

/-- Line 69: `sensor_state = sim.delayed_states[0] + sensor_noise`. -/
def tickSensed (args : Args) (rng : ℕ → ℚ) (s : SimState σ κ) : ℚ :=
  s.delayed.headD 0 + tickNoise args rng s

/-- Lines 72-78: the commanded output and updated controller state — zero
and unchanged when `supress_output` is set, else the controller's `calc`
with `max_allowable_change = output_rate_limit * sampletime` (line 57). -/
def tickOut (args : Args) (C : Controller κ) (rng : ℕ → ℚ)
    (timestamp : ℚ) (s : SimState σ κ) : ℚ × κ :=
  if args.supress_output then ((0 : ℚ), s.ctrlState)
  else C.calcFn s.ctrlState timestamp (tickSensed args rng s) args.setpoint
    (args.output_rate_limit * args.sampletime)

/-- Line 105: `simulation.plant.update(output, duration=args.sampletime)`. -/
def tickPlant (args : Args) (P : Plant σ) (C : Controller κ) (rng : ℕ → ℚ)
    (timestamp : ℚ) (s : SimState σ κ) : σ :=
  P.update s.plantState (tickOut args C rng timestamp s).1 args.sampletime

/-- Line 108: `simulation.delayed_states.append(simulation.plant.sensable_state)`. -/
def tickDelayed (args : Args) (P : Plant σ) (C : Controller κ) (rng : ℕ → ℚ)
    (timestamp : ℚ) (s : SimState σ κ) : List ℚ :=
  dequeAppend (delayedSamplesLen args).toNat s.delayed
    (P.sensable (tickPlant args P C rng timestamp s))

/-- One iteration of the `while` body of `simulate_system` (lines 62-82)
followed by `simulation_update` (lines 104-114), entered with the already
incremented timestamp.  `delayed[0]` is `headD` (the deque is never empty
in a run, its capacity being at least 1). -/
def simTick (args : Args) (P : Plant σ) (C : Controller κ) (rng : ℕ → ℚ)
    (timestamp : ℚ) (s : SimState σ κ) : SimState σ κ :=
  { plantState := tickPlant args P C rng timestamp s
    ctrlState := (tickOut args C rng timestamp s).2
    delayed := tickDelayed args P C rng timestamp s
    timestamps := s.timestamps ++ [timestamp]
    plant_states := s.plant_states ++ [P.sensable (tickPlant args P C rng timestamp s)]
    sensor_states := s.sensor_states ++ [(tickDelayed args P C rng timestamp s).headD 0]
    outputs := s.outputs ++ [(tickOut args C rng timestamp s).1]
    sensedInputs := s.sensedInputs ++ [tickSensed args rng s]
    noises := s.noises ++ [tickNoise args rng s]
    rngCalls := if args.sensor_noise_std_dev ≤ 0 then s.rngCalls else s.rngCalls + 1 }

/-- Run exactly `n` ticks, advancing the timestamp by `sampletime` before
each tick (auxiliary counter form of the `while` loop, used to reason about
`simLoop` by induction on the tick count). -/
def runTicks (args : Args) (P : Plant σ) (C : Controller κ) (rng : ℕ → ℚ) :
    ℕ → ℚ → SimState σ κ → SimState σ κ
  | 0, _, s => s
  | n + 1, t, s =>
      runTicks args P C rng n (t + args.sampletime)
        (simTick args P C rng (t + args.sampletime) s)

/-- The `while timestamp < (args.interval * 60)` loop of `simulate_system`
(lines 61-82): each iteration first advances the timestamp by `sampletime`
and then executes the body.  Termination needs `0 < sampletime`. -/
def simLoop (args : Args) (P : Plant σ) (C : Controller κ) (rng : ℕ → ℚ)
    (hst : 0 < args.sampletime) (timestamp : ℚ) (s : SimState σ κ) : SimState σ κ :=
  if h : timestamp < args.interval * 60 then
    simLoop args P C rng hst (timestamp + args.sampletime)
      (simTick args P C rng (timestamp + args.sampletime) s)
  else s
termination_by (Int.ceil ((args.interval * 60 - timestamp) / args.sampletime)).toNat
decreasing_by
  have hkey : (args.interval * 60 - (timestamp + args.sampletime)) / args.sampletime
      = (args.interval * 60 - timestamp) / args.sampletime - 1 := by
    field_simp
    ring
  have hpos : (0:ℚ) < (args.interval * 60 - timestamp) / args.sampletime :=
    div_pos (by linarith) hst
  have hceil : 1 ≤ Int.ceil ((args.interval * 60 - timestamp) / args.sampletime) :=
    Int.ceil_pos.mpr hpos
  rw [hkey, Int.ceil_sub_one]
  omega

/-- Initial `SimState` as built by `simulate_system` lines 33-54: empty
series and the `delayed_states` deque pre-filled with `maxlen` copies of
the plant's initial `sensable_state`. -/
def initState (args : Args) (P : Plant σ) (p0 : σ) (c0 : κ) : SimState σ κ :=
  { plantState := p0
    ctrlState := c0
    delayed := List.replicate (delayedSamplesLen args).toNat (P.sensable p0)
    timestamps := []
    plant_states := []
    sensor_states := []
    outputs := []
    sensedInputs := []
    noises := []
    rngCalls := 0 }

/-- The whole simulation run after configuration validation: initialize the
state, then run the while loop from `timestamp = 0`. -/
def runSim (args : Args) (P : Plant σ) (C : Controller κ) (rng : ℕ → ℚ)
    (hst : 0 < args.sampletime) (p0 : σ) (c0 : κ) : SimState σ κ :=
  simLoop args P C rng hst 0 (initState args P p0 c0)

/-- Clamp `v` into `[lo, hi]` (Python `max(lo, min(hi, v))`). -/
def clampQ (v lo hi : ℚ) : ℚ := max lo (min hi v)

/-- Modelled from the spec: the class `PIDArduino` lives in `controller.py`,
which is not among the embedded sources; only its construction and call
sites in `sim.py` are.  State per spec §3 "PIDState": gains, accumulated
integral, last input (derivative on measurement), last computed output
(rate limiting), last recompute time (sample-time gating); the spec's §8
"previous output or 0 at start" fixes the initial values at zero. -/
structure PIDArduino where
  kp : ℚ
  ki : ℚ
  kd : ℚ
  sampletime : ℚ
  out_min : ℚ
  out_max : ℚ
  integral : ℚ
  lastInput : ℚ
  lastOutput : ℚ
  lastCalcTimestamp : ℚ
deriving DecidableEq

/-- Modelled from the spec: `PIDArduino.calc(input_val, setpoint,
max_allowable_change)` per spec §4.3, with the time source passed in as
`now`.  Steps: sample-time gating (return the previous output unchanged if
called again within one sample time); error = setpoint − input; integral
accumulates error × sample time; derivative on measurement over one sample
time; raw output = kp·error + ki·integral + kd·derivative; anti-windup
(the integral accumulation of a step whose raw output leaves
`[out_min, out_max]` is rolled back); range clamp to `[out_min, out_max]`;
rate limiting of the change from the previous output to
`±max_allowable_change`.  Total: never raises on any input. -/
def PIDArduino.calcFn (pid : PIDArduino) (now input_val setpoint max_allowable_change : ℚ) :
    ℚ × PIDArduino :=
  if now - pid.lastCalcTimestamp < pid.sampletime then
    (pid.lastOutput, pid)
  else
    let error := setpoint - input_val
    let integralNew := pid.integral + error * pid.sampletime
    let derivative := -((input_val - pid.lastInput) / pid.sampletime)
    let raw := pid.kp * error + pid.ki * integralNew + pid.kd * derivative
    let integralKept :=
      if raw < pid.out_min ∨ pid.out_max < raw then pid.integral else integralNew
    let clamped := clampQ raw pid.out_min pid.out_max
    let output := pid.lastOutput
      + clampQ (clamped - pid.lastOutput) (-max_allowable_change) max_allowable_change
    (output,
      { pid with
        integral := integralKept
        lastInput := input_val
        lastOutput := output
        lastCalcTimestamp := now })

/-- The `PIDArduino` built by `simulate_system` lines 35-42 from the parsed
arguments (gains `args.pid`, the loop's sample time and output bounds). -/
def initPID (args : Args) : PIDArduino :=
  { kp := args.pid.1
    ki := args.pid.2.1
    kd := args.pid.2.2
    sampletime := args.sampletime
    out_min := args.out_min
    out_max := args.out_max
    integral := 0
    lastInput := 0
    lastOutput := 0
    lastCalcTimestamp := 0 }

/-- The PID controller wrapped in the loop's controller interface. -/
def pidController : Controller PIDArduino :=
  ⟨fun pid now input_val setpoint mac => pid.calcFn now input_val setpoint mac⟩

/-- `simulate_system` up to its result state: the configuration checks of
lines 24-30 (`hasattr(plant, args.plant)` against the names defined by the
plant module, given here as `registry`, and the two `isinstance(_, dict)`
asserts) run before anything of the loop; on success the loop runs with the
`PIDArduino` controller.  A failed `assert` is an exception: no state is
produced.  The plant construction `plantClass(initial, constants)` lives in
the absent `plant.py`, so the constructed plant is the parameter `P`, `p0`. -/
def simulateSystem (registry : List String) (args : Args) (P : Plant σ) (p0 : σ)
    (rng : ℕ → ℚ) (hst : 0 < args.sampletime) :
    Except String (SimState σ PIDArduino) :=
  if registry.contains args.plant = false then
    .error "AssertionError: unknown plant"
  else if args.initial_values.isDict = false then
    .error "AssertionError: initial values are not a dict"
  else if args.constant_values.isDict = false then
    .error "AssertionError: constant values are not a dict"
  else
    .ok (runSim args P pidController rng hst p0 (initPID args))

/-- Number of iterations the while loop performs from `timestamp = 0`:
the least `n` with `n · sampletime ≥ interval · 60`. -/
def numTicks (args : Args) : ℕ :=
  (Int.ceil (args.interval * 60 / args.sampletime)).toNat

/-- Bridge from the while loop to the tick-count form: from timestamp `t`,
`simLoop` performs exactly `⌈(interval·60 − t) / sampletime⌉⁺` ticks. -/
theorem simLoop_eq_runTicks (args : Args) (P : Plant σ) (C : Controller κ)
    (rng : ℕ → ℚ) (hst : 0 < args.sampletime) :
    ∀ (n : ℕ) (t : ℚ) (s : SimState σ κ),
      (Int.ceil ((args.interval * 60 - t) / args.sampletime)).toNat = n →
      simLoop args P C rng hst t s = runTicks args P C rng n t s := by
  intro n
  induction n with
  | zero =>
      intro t s hn
      have hle : Int.ceil ((args.interval * 60 - t) / args.sampletime) ≤ 0 := by omega
      have hdiv : (args.interval * 60 - t) / args.sampletime ≤ 0 := by
        exact_mod_cast Int.ceil_le.mp (by exact_mod_cast hle)
      have hnum : args.interval * 60 - t ≤ 0 :=
        nonpos_of_mul_nonpos_right (by
          have := (div_nonpos_iff.mp hdiv)
          rcases this with ⟨h1, h2⟩ | ⟨h1, h2⟩
          · nlinarith
          · nlinarith) hst
      rw [simLoop]
      simp only [runTicks]
      rw [dif_neg (by linarith)]
  | succ k ih =>
      intro t s hn
      have hpos : 0 < Int.ceil ((args.interval * 60 - t) / args.sampletime) := by omega
      have hdivpos : 0 < (args.interval * 60 - t) / args.sampletime :=
        Int.ceil_pos.mp hpos
      have ht : t < args.interval * 60 := by
        by_contra hc
        have : (args.interval * 60 - t) / args.sampletime ≤ 0 :=
          div_nonpos_of_nonpos_of_nonneg (by linarith) (le_of_lt hst)
        linarith
      have hkey : (args.interval * 60 - (t + args.sampletime)) / args.sampletime
          = (args.interval * 60 - t) / args.sampletime - 1 := by
        field_simp
        ring
      have hnext : (Int.ceil ((args.interval * 60 - (t + args.sampletime))
          / args.sampletime)).toNat = k := by
        rw [hkey, Int.ceil_sub_one]
        omega
      rw [simLoop]
      rw [dif_pos ht]
      simp only [runTicks]
      exact ih (t + args.sampletime) (simTick args P C rng (t + args.sampletime) s) hnext

/-- The whole run performs exactly `numTicks args` ticks. -/
theorem runSim_eq_runTicks (args : Args) (P : Plant σ) (C : Controller κ)
    (rng : ℕ → ℚ) (hst : 0 < args.sampletime) (p0 : σ) (c0 : κ) :
    runSim args P C rng hst p0 c0
      = runTicks args P C rng (numTicks args) 0 (initState args P p0 c0) := by
  apply simLoop_eq_runTicks
  simp [numTicks]

/-- Every tick appends exactly one element to each recorded series. -/
theorem runTicks_lengths (args : Args) (P : Plant σ) (C : Controller κ) (rng : ℕ → ℚ) :
    ∀ (n : ℕ) (t : ℚ) (s : SimState σ κ),
      (runTicks args P C rng n t s).timestamps.length = s.timestamps.length + n ∧
      (runTicks args P C rng n t s).sensor_states.length = s.sensor_states.length + n ∧
      (runTicks args P C rng n t s).outputs.length = s.outputs.length + n ∧
      (runTicks args P C rng n t s).plant_states.length = s.plant_states.length + n ∧
      (runTicks args P C rng n t s).sensedInputs.length = s.sensedInputs.length + n := by
  intro n
  induction n with
  | zero => intro t s; simp [runTicks]
  | succ k ih =>
      intro t s
      obtain ⟨h1, h2, h3, h4, h5⟩ :=
        ih (t + args.sampletime) (simTick args P C rng (t + args.sampletime) s)
      simp only [runTicks]
      rw [h1, h2, h3, h4, h5]
      simp only [simTick, List.length_append, List.length_singleton]
      omega

/-! ### Concrete fixtures for witnesses and counterexamples -/

/-- A concrete configuration: 0.2 simulated minutes (12 s) at 5 s sample
time, no delay, no noise, zero gains. -/
def testArgsA : Args :=
  { plant := "Kettle", pid := (0, 0, 0), setpoint := 0, supress_output := false,
    interval := 1/5, delay := 0, sampletime := 5, out_min := 0, out_max := 100,
    sensor_noise_std_dev := 0, output_rate_limit := 1000000,
    constant_values := .dict [], initial_values := .dict [] }

/-- A concrete plant satisfying the capability contract: its observable
state drifts by one per update regardless of the command (open-loop drift,
like a kettle cooling toward ambient). -/
def driftPlant : Plant ℚ := ⟨fun s _ _ => s + 1, fun s => s⟩

theorem testArgsA_sampletime_pos : (0:ℚ) < testArgsA.sampletime := by norm_num [testArgsA]

theorem numTicks_testArgsA : numTicks testArgsA = 3 := by
  have h : ⌈(12/5 : ℚ)⌉ = 3 := by norm_num [Int.ceil_eq_iff]
  norm_num [numTicks, testArgsA]
  rw [h]
  decide

/-! ### C2: recorded series lengths versus the loop's termination test -/

/-- C2 (amended): for every configuration the four recorded time series
have equal length, and the common length is
`⌈horizon_minutes · 60 / sample_time⌉` — the while loop runs one body per
`k` with `k · sample_time < horizon_minutes · 60`, so the count is the
ceiling of the quotient, not its rounding (they agree exactly when they
agree within one tick at the `<` boundary, e.g. on exact divisions). -/
theorem recorded_series_lengths (args : Args) (P : Plant σ) (C : Controller κ)
    (rng : ℕ → ℚ) (hst : 0 < args.sampletime) (p0 : σ) (c0 : κ) :
    (runSim args P C rng hst p0 c0).timestamps.length
        = (Int.ceil (args.interval * 60 / args.sampletime)).toNat ∧
    (runSim args P C rng hst p0 c0).sensor_states.length
        = (Int.ceil (args.interval * 60 / args.sampletime)).toNat ∧
    (runSim args P C rng hst p0 c0).outputs.length
        = (Int.ceil (args.interval * 60 / args.sampletime)).toNat ∧
    (runSim args P C rng hst p0 c0).plant_states.length
        = (Int.ceil (args.interval * 60 / args.sampletime)).toNat := by
  obtain ⟨h1, h2, h3, h4, h5⟩ :=
    runTicks_lengths args P C rng (numTicks args) 0 (initState args P p0 c0)
  rw [runSim_eq_runTicks args P C rng hst p0 c0]
  simp only [initState, List.length_nil, Nat.zero_add] at h1 h2 h3 h4
  exact ⟨h1, h2, h3, h4⟩

/-- C2 counterexample: at 0.2 simulated minutes (12 s) and 5 s sample time
the run records 3 samples per series, while
`round(horizon_minutes · 60 / sample_time) = round(2.4) = 2`. -/
theorem recorded_series_lengths_round_cx :
    (runSim testArgsA driftPlant pidController (fun _ => 0) testArgsA_sampletime_pos
        40 (initPID testArgsA)).timestamps.length
      ≠ (pyRound (testArgsA.interval * 60 / testArgsA.sampletime)).toNat := by
  obtain ⟨h1, _, _, _, _⟩ :=
    runTicks_lengths testArgsA driftPlant pidController (fun _ => 0) (numTicks testArgsA)
      0 (initState testArgsA driftPlant 40 (initPID testArgsA))
  rw [runSim_eq_runTicks, h1, numTicks_testArgsA]
  have hr : pyRound (testArgsA.interval * 60 / testArgsA.sampletime) = 2 := by
    norm_num [pyRound, testArgsA]
  rw [hr]
  simp only [initState, List.length_nil, Nat.zero_add]
  decide

/-- Witness for C2 at the concrete fixture: 0 < sample time and the four
series of the fixture run all have the ceiling length. -/
theorem recorded_series_lengths_witness :
    (runSim testArgsA driftPlant pidController (fun _ => 0) testArgsA_sampletime_pos
        40 (initPID testArgsA)).timestamps.length
        = (Int.ceil (testArgsA.interval * 60 / testArgsA.sampletime)).toNat ∧
    (runSim testArgsA driftPlant pidController (fun _ => 0) testArgsA_sampletime_pos
        40 (initPID testArgsA)).sensor_states.length
        = (Int.ceil (testArgsA.interval * 60 / testArgsA.sampletime)).toNat ∧
    (runSim testArgsA driftPlant pidController (fun _ => 0) testArgsA_sampletime_pos
        40 (initPID testArgsA)).outputs.length
        = (Int.ceil (testArgsA.interval * 60 / testArgsA.sampletime)).toNat ∧
    (runSim testArgsA driftPlant pidController (fun _ => 0) testArgsA_sampletime_pos
        40 (initPID testArgsA)).plant_states.length
        = (Int.ceil (testArgsA.interval * 60 / testArgsA.sampletime)).toNat :=
  recorded_series_lengths testArgsA driftPlant pidController (fun _ => 0)
    testArgsA_sampletime_pos 40 (initPID testArgsA)

/-! ### C3: delay-line capacity -/

/-- C3: the delay-line capacity is `max(1, round(delay / sampletime))`; it
is always at least 1, and a zero delay yields capacity exactly 1. -/
theorem delayedSamplesLen_spec (args : Args) (hd : 0 ≤ args.delay)
    (hst : 0 < args.sampletime) :
    delayedSamplesLen args = max 1 (pyRound (args.delay / args.sampletime)) ∧
    1 ≤ delayedSamplesLen args ∧
    (args.delay = 0 → delayedSamplesLen args = 1) := by
  refine ⟨rfl, le_max_left _ _, fun h0 => ?_⟩
  norm_num [delayedSamplesLen, h0, pyRound]

/-- Witness for C3 at delay 0 and sample time 5. -/
theorem delayedSamplesLen_spec_witness :
    (0:ℚ) ≤ testArgsA.delay ∧ (0:ℚ) < testArgsA.sampletime ∧
    (delayedSamplesLen testArgsA
        = max 1 (pyRound (testArgsA.delay / testArgsA.sampletime)) ∧
      1 ≤ delayedSamplesLen testArgsA ∧
      (testArgsA.delay = 0 → delayedSamplesLen testArgsA = 1)) :=
  ⟨by norm_num [testArgsA], by norm_num [testArgsA],
    delayedSamplesLen_spec testArgsA (by norm_num [testArgsA]) (by norm_num [testArgsA])⟩

/-! ### C4: delay-line pre-fill -/

/-- C4: before the loop starts the deque holds exactly `maxlen` copies of
the plant's initial observable state, and its front (`oldest()`) is that
initial observable state. -/
theorem delayed_states_prefill (args : Args) (P : Plant σ) (p0 : σ) (c0 : κ)
    (hd : 0 ≤ args.delay) (hst : 0 < args.sampletime) :
    (initState args P p0 c0).delayed
        = List.replicate (delayedSamplesLen args).toNat (P.sensable p0) ∧
    (initState args P p0 c0).delayed.head? = some (P.sensable p0) := by
  refine ⟨rfl, ?_⟩
  have h1 : 1 ≤ delayedSamplesLen args := le_max_left _ _
  have h2 : (delayedSamplesLen args).toNat ≠ 0 := by omega
  simp [initState, List.head?_replicate, h2]

/-- Witness for C4 at the concrete fixture (zero delay). -/
theorem delayed_states_prefill_witness :
    (0:ℚ) ≤ testArgsA.delay ∧ (0:ℚ) < testArgsA.sampletime ∧
    ((initState testArgsA driftPlant (40:ℚ) (initPID testArgsA)).delayed
        = List.replicate (delayedSamplesLen testArgsA).toNat (driftPlant.sensable 40) ∧
      (initState testArgsA driftPlant (40:ℚ) (initPID testArgsA)).delayed.head?
        = some (driftPlant.sensable 40)) :=
  ⟨by norm_num [testArgsA], by norm_num [testArgsA],
    delayed_states_prefill testArgsA driftPlant 40 (initPID testArgsA)
      (by norm_num [testArgsA]) (by norm_num [testArgsA])⟩

/-! ### Noise handling: C7 (zero-noise determinism) and C10 (nonpositive
std dev disables the noise branch) -/

/-- With a nonpositive standard deviation the drawn noise is exactly 0. -/
theorem tickNoise_nonpos (args : Args) (rng : ℕ → ℚ) (s : SimState σ κ)
    (hstd : args.sensor_noise_std_dev ≤ 0) : tickNoise args rng s = 0 := by
  simp [tickNoise, hstd]

/-- With a nonpositive standard deviation one tick does not depend on the
RNG stream and does not advance the RNG counter. -/
theorem simTick_noise_disabled (args : Args) (P : Plant σ) (C : Controller κ)
    (rng rng' : ℕ → ℚ) (t : ℚ) (s : SimState σ κ)
    (hstd : args.sensor_noise_std_dev ≤ 0) :
    simTick args P C rng t s = simTick args P C rng' t s ∧
    (simTick args P C rng t s).rngCalls = s.rngCalls := by
  constructor
  · simp [simTick, tickPlant, tickDelayed, tickOut, tickSensed,
      tickNoise_nonpos args rng s hstd, tickNoise_nonpos args rng' s hstd]
  · simp [simTick, hstd]

/-- Nonpositive noise, arbitrarily many ticks: the run does not depend on
the RNG stream, never advances the RNG counter, and every recorded noise
value is 0. -/
theorem runTicks_noise_disabled (args : Args) (P : Plant σ) (C : Controller κ)
    (rng rng' : ℕ → ℚ) (hstd : args.sensor_noise_std_dev ≤ 0) :
    ∀ (n : ℕ) (t : ℚ) (s : SimState σ κ),
      runTicks args P C rng n t s = runTicks args P C rng' n t s ∧
      (runTicks args P C rng n t s).rngCalls = s.rngCalls ∧
      (runTicks args P C rng n t s).noises = s.noises ++ List.replicate n 0 := by
  intro n
  induction n with
  | zero => intro t s; simp [runTicks]
  | succ k ih =>
      intro t s
      obtain ⟨heq, hcalls⟩ :=
        simTick_noise_disabled args P C rng rng' (t + args.sampletime) s hstd
      obtain ⟨ih1, ih2, ih3⟩ :=
        ih (t + args.sampletime) (simTick args P C rng (t + args.sampletime) s)
      refine ⟨?_, ?_, ?_⟩
      · simp only [runTicks]
        rw [← heq]
        exact ih1
      · simp only [runTicks]
        rw [ih2, hcalls]
      · simp only [runTicks]
        have hnoise : (simTick args P C rng (t + args.sampletime) s).noises
            = s.noises ++ [0] := by
          simp [simTick, tickNoise_nonpos args rng s hstd]
        rw [ih3, hnoise]
        simp [List.replicate_succ]

/-- C7: with `sensor_noise_std_dev = 0` the RNG is never invoked, every
drawn noise value is exactly 0, and two runs with identical configuration
but arbitrary (different) RNG streams produce identical states — in
particular identical recorded time series. -/
theorem zero_noise_deterministic (args : Args) (P : Plant σ) (C : Controller κ)
    (rng rng' : ℕ → ℚ) (hst : 0 < args.sampletime) (p0 : σ) (c0 : κ)
    (hstd : args.sensor_noise_std_dev = 0) :
    runSim args P C rng hst p0 c0 = runSim args P C rng' hst p0 c0 ∧
    (runSim args P C rng hst p0 c0).rngCalls = 0 ∧
    ∀ v ∈ (runSim args P C rng hst p0 c0).noises, v = 0 := by
  have hstd' : args.sensor_noise_std_dev ≤ 0 := le_of_eq hstd
  obtain ⟨h1, h2, h3⟩ := runTicks_noise_disabled args P C rng rng' hstd'
    (numTicks args) 0 (initState args P p0 c0)
  rw [runSim_eq_runTicks args P C rng hst p0 c0,
    runSim_eq_runTicks args P C rng' hst p0 c0]
  refine ⟨h1, ?_, ?_⟩
  · rw [h2]; rfl
  · rw [h3]
    intro v hv
    simp only [initState, List.nil_append] at hv
    exact List.eq_of_mem_replicate hv

/-- Witness for C7: the fixture run with two visibly different RNG streams. -/
theorem zero_noise_deterministic_witness :
    runSim testArgsA driftPlant pidController (fun _ => 0) testArgsA_sampletime_pos
        40 (initPID testArgsA)
      = runSim testArgsA driftPlant pidController (fun k => k) testArgsA_sampletime_pos
        40 (initPID testArgsA) ∧
    (runSim testArgsA driftPlant pidController (fun _ => 0) testArgsA_sampletime_pos
        40 (initPID testArgsA)).rngCalls = 0 ∧
    ∀ v ∈ (runSim testArgsA driftPlant pidController (fun _ => 0)
        testArgsA_sampletime_pos 40 (initPID testArgsA)).noises, v = 0 :=
  zero_noise_deterministic testArgsA driftPlant pidController (fun _ => 0) (fun k => k)
    testArgsA_sampletime_pos 40 (initPID testArgsA) (by norm_num [testArgsA])

/-- C10: for every `sensor_noise_std_dev ≤ 0` — negative values included —
the noise branch is skipped: every drawn noise value is exactly 0, the RNG
is never invoked (the counter stays 0 and the run does not depend on the
stream), and a configuration passing the unrelated asserts still succeeds
(`simulate_system` returns a result, raising nothing). -/
theorem nonpos_noise_std_dev_disables_noise (args : Args) (P : Plant σ)
    (registry : List String) (rng rng' : ℕ → ℚ) (hst : 0 < args.sampletime) (p0 : σ)
    (hstd : args.sensor_noise_std_dev ≤ 0)
    (hreg : registry.contains args.plant = true)
    (hinit : args.initial_values.isDict = true)
    (hconst : args.constant_values.isDict = true) :
    (runSim args P pidController rng hst p0 (initPID args)).rngCalls = 0 ∧
    (∀ v ∈ (runSim args P pidController rng hst p0 (initPID args)).noises, v = 0) ∧
    runSim args P pidController rng hst p0 (initPID args)
      = runSim args P pidController rng' hst p0 (initPID args) ∧
    simulateSystem registry args P p0 rng hst
      = .ok (runSim args P pidController rng hst p0 (initPID args)) := by
  obtain ⟨h1, h2, h3⟩ := runTicks_noise_disabled args P pidController rng rng' hstd
    (numTicks args) 0 (initState args P p0 (initPID args))
  rw [runSim_eq_runTicks args P pidController rng hst p0 (initPID args),
    runSim_eq_runTicks args P pidController rng' hst p0 (initPID args)]
  refine ⟨?_, ?_, h1, ?_⟩
  · rw [h2]; rfl
  · rw [h3]
    intro v hv
    simp only [initState, List.nil_append] at hv
    exact List.eq_of_mem_replicate hv
  · simp only [simulateSystem, hreg, hinit, hconst]
    rw [runSim_eq_runTicks args P pidController rng hst p0 (initPID args)]
    simp

/-- Witness for C10 at a strictly negative standard deviation. -/
theorem nonpos_noise_std_dev_disables_noise_witness :
    ((runSim { testArgsA with sensor_noise_std_dev := -1 } driftPlant pidController
        (fun _ => 7) (by norm_num [testArgsA]) 40
        (initPID { testArgsA with sensor_noise_std_dev := -1 })).rngCalls = 0 ∧
      (∀ v ∈ (runSim { testArgsA with sensor_noise_std_dev := -1 } driftPlant
          pidController (fun _ => 7) (by norm_num [testArgsA]) 40
          (initPID { testArgsA with sensor_noise_std_dev := -1 })).noises, v = 0) ∧
      runSim { testArgsA with sensor_noise_std_dev := -1 } driftPlant pidController
          (fun _ => 7) (by norm_num [testArgsA]) 40
          (initPID { testArgsA with sensor_noise_std_dev := -1 })
        = runSim { testArgsA with sensor_noise_std_dev := -1 } driftPlant pidController
          (fun k => k) (by norm_num [testArgsA]) 40
          (initPID { testArgsA with sensor_noise_std_dev := -1 }) ∧
      simulateSystem ["Kettle"] { testArgsA with sensor_noise_std_dev := -1 }
          driftPlant 40 (fun _ => 7) (by norm_num [testArgsA])
        = .ok (runSim { testArgsA with sensor_noise_std_dev := -1 } driftPlant
          pidController (fun _ => 7) (by norm_num [testArgsA]) 40
          (initPID { testArgsA with sensor_noise_std_dev := -1 }))) :=
  nonpos_noise_std_dev_disables_noise { testArgsA with sensor_noise_std_dev := -1 }
    driftPlant ["Kettle"] (fun _ => 7) (fun k => k) (by norm_num [testArgsA]) 40
    (by norm_num [testArgsA]) (by norm_num [testArgsA]) rfl rfl

/-! ### C8: suppressed output -/

/-- With `supress_output` set, ticks ignore the controller entirely: the
output is 0, the controller state is untouched, and the plant advances
under the zero command. -/
theorem runTicks_suppressed (args : Args) (P : Plant σ) (C C' : Controller κ)
    (rng : ℕ → ℚ) (hsup : args.supress_output = true) :
    ∀ (n : ℕ) (t : ℚ) (s : SimState σ κ),
      (runTicks args P C rng n t s).outputs = s.outputs ++ List.replicate n 0 ∧
      (runTicks args P C rng n t s).ctrlState = s.ctrlState ∧
      (runTicks args P C rng n t s).plantState
        = (fun q => P.update q 0 args.sampletime)^[n] s.plantState ∧
      runTicks args P C rng n t s = runTicks args P C' rng n t s := by
  intro n
  induction n with
  | zero => intro t s; simp [runTicks]
  | succ k ih =>
      intro t s
      have hout : tickOut args C rng (t + args.sampletime) s = (0, s.ctrlState) := by
        simp [tickOut, hsup]
      have hout' : tickOut args C' rng (t + args.sampletime) s = (0, s.ctrlState) := by
        simp [tickOut, hsup]
      have hticks : simTick args P C rng (t + args.sampletime) s
          = simTick args P C' rng (t + args.sampletime) s := by
        simp [simTick, tickPlant, tickDelayed, hout, hout']
      obtain ⟨ih1, ih2, ih3, ih4⟩ :=
        ih (t + args.sampletime) (simTick args P C rng (t + args.sampletime) s)
      refine ⟨?_, ?_, ?_, ?_⟩
      · simp only [runTicks]
        rw [ih1]
        have : (simTick args P C rng (t + args.sampletime) s).outputs
            = s.outputs ++ [0] := by
          simp [simTick, hout]
        rw [this]
        simp [List.replicate_succ]
      · simp only [runTicks]
        rw [ih2]
        simp [simTick, hout]
      · simp only [runTicks]
        rw [ih3]
        have : (simTick args P C rng (t + args.sampletime) s).plantState
            = P.update s.plantState 0 args.sampletime := by
          simp [simTick, tickPlant, hout]
        rw [this, Function.iterate_succ_apply]
      · simp only [runTicks]
        rw [← hticks]
        exact ih4

/-- C8: with the suppress flag set, every recorded output is 0, the
controller is never invoked (its state stays the initial one and the run
does not depend on the controller's `calc` at all), and the plant state is
exactly the result of iterating `update` with the zero command. -/
theorem suppressed_output_zero (args : Args) (P : Plant σ) (C C' : Controller κ)
    (rng : ℕ → ℚ) (hst : 0 < args.sampletime) (p0 : σ) (c0 : κ)
    (hsup : args.supress_output = true) :
    (∀ v ∈ (runSim args P C rng hst p0 c0).outputs, v = 0) ∧
    (runSim args P C rng hst p0 c0).ctrlState = c0 ∧
    runSim args P C rng hst p0 c0 = runSim args P C' rng hst p0 c0 ∧
    (runSim args P C rng hst p0 c0).plantState
      = (fun q => P.update q 0 args.sampletime)^[numTicks args] p0 := by
  obtain ⟨h1, h2, h3, h4⟩ := runTicks_suppressed args P C C' rng hsup
    (numTicks args) 0 (initState args P p0 c0)
  rw [runSim_eq_runTicks args P C rng hst p0 c0,
    runSim_eq_runTicks args P C' rng hst p0 c0]
  refine ⟨?_, h2, h4, h3⟩
  rw [h1]
  intro v hv
  simp only [initState, List.nil_append] at hv
  exact List.eq_of_mem_replicate hv

/-- Witness for C8 at the concrete fixture with the suppress flag set,
against two different controllers. -/
theorem suppressed_output_zero_witness :
    (∀ v ∈ (runSim { testArgsA with supress_output := true } driftPlant pidController
        (fun _ => 0) (by norm_num [testArgsA]) 40
        (initPID { testArgsA with supress_output := true })).outputs, v = 0) ∧
    (runSim { testArgsA with supress_output := true } driftPlant pidController
        (fun _ => 0) (by norm_num [testArgsA]) 40
        (initPID { testArgsA with supress_output := true })).ctrlState
      = initPID { testArgsA with supress_output := true } ∧
    runSim { testArgsA with supress_output := true } driftPlant pidController
        (fun _ => 0) (by norm_num [testArgsA]) 40
        (initPID { testArgsA with supress_output := true })
      = runSim { testArgsA with supress_output := true } driftPlant
        ⟨fun k _ _ _ _ => (99, k)⟩ (fun _ => 0) (by norm_num [testArgsA]) 40
        (initPID { testArgsA with supress_output := true }) ∧
    (runSim { testArgsA with supress_output := true } driftPlant pidController
        (fun _ => 0) (by norm_num [testArgsA]) 40
        (initPID { testArgsA with supress_output := true })).plantState
      = (fun q => driftPlant.update q 0
          ({ testArgsA with supress_output := true } : Args).sampletime)^[
          numTicks { testArgsA with supress_output := true }] 40 :=
  suppressed_output_zero { testArgsA with supress_output := true } driftPlant
    pidController ⟨fun k _ _ _ _ => (99, k)⟩ (fun _ => 0) (by norm_num [testArgsA]) 40
    (initPID { testArgsA with supress_output := true }) rfl

/-! ### C9: configuration errors are fatal and precede the loop -/

/-- C9: an unknown plant name or a non-dict initial/constant literal makes
`simulate_system` fail its asserts before any loop state exists: the result
is an error and no run state (hence no partially filled series) is
produced. -/
theorem config_error_fatal (registry : List String) (args : Args) (P : Plant σ)
    (p0 : σ) (rng : ℕ → ℚ) (hst : 0 < args.sampletime)
    (hbad : registry.contains args.plant = false ∨
      args.initial_values.isDict = false ∨ args.constant_values.isDict = false) :
    (∃ msg, simulateSystem registry args P p0 rng hst = .error msg) ∧
    ∀ s, simulateSystem registry args P p0 rng hst ≠ .ok s := by
  have hres : ∃ msg, simulateSystem registry args P p0 rng hst = .error msg := by
    rcases hbad with h | h | h
    · have h' : ¬ args.plant ∈ registry := by simpa using h
      exact ⟨"AssertionError: unknown plant", by simp [simulateSystem, h']⟩
    · rcases hreg : registry.contains args.plant with _ | _
      · have h' : ¬ args.plant ∈ registry := by simpa using hreg
        exact ⟨"AssertionError: unknown plant", by simp [simulateSystem, h']⟩
      · have h' : args.plant ∈ registry := by simpa using hreg
        exact ⟨"AssertionError: initial values are not a dict",
          by simp [simulateSystem, h', h]⟩
    · rcases hreg : registry.contains args.plant with _ | _
      · have h' : ¬ args.plant ∈ registry := by simpa using hreg
        exact ⟨"AssertionError: unknown plant", by simp [simulateSystem, h']⟩
      · have h' : args.plant ∈ registry := by simpa using hreg
        rcases hinit : args.initial_values.isDict with _ | _
        · exact ⟨"AssertionError: initial values are not a dict",
            by simp [simulateSystem, h', hinit]⟩
        · exact ⟨"AssertionError: constant values are not a dict",
            by simp [simulateSystem, h', hinit, h]⟩
  obtain ⟨msg, hmsg⟩ := hres
  exact ⟨⟨msg, hmsg⟩, fun s hs => by rw [hmsg] at hs; exact Except.noConfusion hs⟩

/-- Witness for C9: unknown plant name `Foo` against a registry knowing
only `Kettle`. -/
theorem config_error_fatal_witness :
    (∃ msg, simulateSystem ["Kettle"] { testArgsA with plant := "Foo" } driftPlant
        (40:ℚ) (fun _ => 0) (by norm_num [testArgsA]) = .error msg) ∧
    ∀ s, simulateSystem ["Kettle"] { testArgsA with plant := "Foo" } driftPlant
        (40:ℚ) (fun _ => 0) (by norm_num [testArgsA]) ≠ .ok s :=
  config_error_fatal ["Kettle"] { testArgsA with plant := "Foo" } driftPlant 40
    (fun _ => 0) (by norm_num [testArgsA]) (Or.inl rfl)

/-! ### C1: what the recorded sensor-state series actually holds -/

/-- Relation maintained by every tick (with noise disabled): the series of
values fed to the controller and the recorded sensor-state series have
equal length, each fed value equals the sensor-state recorded one tick
earlier, and the last recorded sensor state is the current deque front. -/
def LagInv (s : SimState σ κ) : Prop :=
  s.sensedInputs.length = s.sensor_states.length ∧
  (∀ i, i + 1 < s.sensedInputs.length →
    s.sensedInputs.getD (i + 1) 0 = s.sensor_states.getD i 0) ∧
  (0 < s.sensor_states.length →
    s.sensor_states.getD (s.sensor_states.length - 1) 0 = s.delayed.headD 0)

/-- One tick preserves `LagInv` when the noise branch is disabled. -/
theorem simTick_lag (args : Args) (P : Plant σ) (C : Controller κ) (rng : ℕ → ℚ)
    (t : ℚ) (s : SimState σ κ) (hstd : args.sensor_noise_std_dev ≤ 0)
    (h : LagInv s) : LagInv (simTick args P C rng t s) := by
  obtain ⟨hlen, hidx, hlast⟩ := h
  have hsensed : tickSensed args rng s = s.delayed.headD 0 := by
    simp [tickSensed, tickNoise_nonpos args rng s hstd]
  refine ⟨?_, ?_, ?_⟩
  · simp [simTick, hlen]
  · intro i hi
    simp only [simTick, List.length_append, List.length_singleton] at hi
    simp only [simTick]
    rcases lt_or_eq_of_le (Nat.lt_succ_iff.mp hi) with hlt | heq
    · rw [List.getD_append _ _ _ _ hlt, List.getD_append _ _ _ _ (by omega)]
      exact hidx i hlt
    · rw [List.getD_append_right _ _ _ _ (by omega), List.getD_append _ _ _ _ (by omega)]
      have h0 : i + 1 - s.sensedInputs.length = 0 := by omega
      rw [h0]
      simp only [List.getD_cons_zero]
      rw [hsensed]
      have hl := hlast (by omega)
      have hidx0 : s.sensor_states.length - 1 = i := by omega
      rw [hidx0] at hl
      exact hl.symm
  · intro _
    simp only [simTick, List.length_append, List.length_singleton, Nat.add_sub_cancel]
    rw [List.getD_append_right _ _ _ _ (le_refl _)]
    simp

/-- `LagInv` is preserved by any number of ticks. -/
theorem runTicks_lag (args : Args) (P : Plant σ) (C : Controller κ) (rng : ℕ → ℚ)
    (hstd : args.sensor_noise_std_dev ≤ 0) :
    ∀ (n : ℕ) (t : ℚ) (s : SimState σ κ),
      LagInv s → LagInv (runTicks args P C rng n t s) := by
  intro n
  induction n with
  | zero => intro t s h; simpa [runTicks] using h
  | succ k ih =>
      intro t s h
      simp only [runTicks]
      exact ih (t + args.sampletime) _
        (simTick_lag args P C rng (t + args.sampletime) s hstd h)

/-- C1 (amended): with noise disabled, the value fed to the controller on
tick `i + 1` equals the sensor-state value recorded on tick `i`: the
recorded series re-reads the deque front after the tick's push, so it lags
the values actually fed to the controller by one tick (and omits the noise
term), rather than recording the value fed on the same tick. -/
theorem sensor_states_record_next_tick_feed (args : Args) (P : Plant σ)
    (C : Controller κ) (rng : ℕ → ℚ) (hst : 0 < args.sampletime) (p0 : σ) (c0 : κ)
    (hstd : args.sensor_noise_std_dev ≤ 0) :
    ∀ i, i + 1 < (runSim args P C rng hst p0 c0).sensedInputs.length →
      (runSim args P C rng hst p0 c0).sensedInputs.getD (i + 1) 0
        = (runSim args P C rng hst p0 c0).sensor_states.getD i 0 := by
  have h0 : LagInv (initState args P p0 c0 : SimState σ κ) := by
    refine ⟨rfl, ?_, ?_⟩
    · intro i hi
      simp [initState] at hi
    · intro hpos
      simp [initState] at hpos
  have h := runTicks_lag args P C rng hstd (numTicks args) 0 (initState args P p0 c0) h0
  rw [runSim_eq_runTicks args P C rng hst p0 c0]
  exact h.2.1

/-- C1 counterexample: in the fixture run (no noise, zero-delay deque of
capacity 1) the first recorded sensor state is 41, while the value the
controller was fed on that same tick was 40. -/
theorem sensor_states_record_cx :
    (runSim testArgsA driftPlant pidController (fun _ => 0) testArgsA_sampletime_pos
        40 (initPID testArgsA)).sensor_states.getD 0 0
      ≠ (runSim testArgsA driftPlant pidController (fun _ => 0) testArgsA_sampletime_pos
        40 (initPID testArgsA)).sensedInputs.getD 0 0 := by
  rw [runSim_eq_runTicks, numTicks_testArgsA]
  norm_num [runTicks, simTick, tickPlant, tickDelayed, tickOut, tickSensed, tickNoise,
    initState, dequeAppend, delayedSamplesLen, pyRound, testArgsA, driftPlant,
    pidController, PIDArduino.calcFn, initPID, clampQ]

/-- Witness for C1's amended theorem on the fixture run: the second fed
value equals the first recorded sensor state. -/
theorem sensor_states_record_next_tick_feed_witness :
    (runSim testArgsA driftPlant pidController (fun _ => 0) testArgsA_sampletime_pos
        40 (initPID testArgsA)).sensedInputs.getD 1 0
      = (runSim testArgsA driftPlant pidController (fun _ => 0)
        testArgsA_sampletime_pos 40 (initPID testArgsA)).sensor_states.getD 0 0 :=
  sensor_states_record_next_tick_feed testArgsA driftPlant pidController (fun _ => 0)
    testArgsA_sampletime_pos 40 (initPID testArgsA) (by norm_num [testArgsA]) 0
    (by
      obtain ⟨_, _, _, _, h5⟩ :=
        runTicks_lengths testArgsA driftPlant pidController (fun _ => 0)
          (numTicks testArgsA) 0 (initState testArgsA driftPlant 40 (initPID testArgsA))
      rw [runSim_eq_runTicks, h5, numTicks_testArgsA]
      norm_num [initState])

/-! ### C5: range containment of the controller output -/

theorem lo_le_clampQ (v lo hi : ℚ) : lo ≤ clampQ v lo hi := le_max_left _ _

theorem clampQ_le_hi (v lo hi : ℚ) (hlohi : lo ≤ hi) : clampQ v lo hi ≤ hi :=
  max_le hlohi (min_le_left _ _)

/-- A rate-limited step from `last` toward `c` stays between them. -/
theorem rate_step_bounds (last c mac : ℚ) (hmac : 0 ≤ mac) :
    min last c ≤ last + clampQ (c - last) (-mac) mac ∧
    last + clampQ (c - last) (-mac) mac ≤ max last c := by
  simp only [clampQ]
  constructor
  · rcases le_total (c - last) 0 with h | h
    · have h1 : min mac (c - last) = c - last := min_eq_right (by linarith)
      rw [h1]
      have h2 : c - last ≤ max (-mac) (c - last) := le_max_right _ _
      have h3 : min last c ≤ c := min_le_right _ _
      linarith
    · have h2 : 0 ≤ min mac (c - last) := le_min hmac (by linarith)
      have h3 : (0:ℚ) ≤ max (-mac) (min mac (c - last)) :=
        le_trans h2 (le_max_right _ _)
      have h4 : min last c ≤ last := min_le_left _ _
      linarith
  · rcases le_total (c - last) 0 with h | h
    · have h1 : min mac (c - last) = c - last := min_eq_right (by linarith)
      rw [h1]
      have h2 : max (-mac) (c - last) ≤ 0 := max_le (by linarith) h
      have h3 : last ≤ max last c := le_max_left _ _
      linarith
    · have h2 : max (-mac) (min mac (c - last)) ≤ c - last :=
        max_le (by linarith) (min_le_right _ _)
      have h3 : c ≤ max last c := le_max_right _ _
      linarith

/-- Clamping to the range and then rate limiting from an in-range previous
output stays within the range. -/
theorem rate_limited_in_range (last raw lo hi mac : ℚ) (hlo : lo ≤ last)
    (hhi : last ≤ hi) (hmac : 0 ≤ mac) :
    lo ≤ last + clampQ (clampQ raw lo hi - last) (-mac) mac ∧
    last + clampQ (clampQ raw lo hi - last) (-mac) mac ≤ hi := by
  obtain ⟨hb1, hb2⟩ := rate_step_bounds last (clampQ raw lo hi) mac hmac
  have h1 : lo ≤ clampQ raw lo hi := lo_le_clampQ _ _ _
  have h2 : clampQ raw lo hi ≤ hi := clampQ_le_hi _ _ _ (le_trans hlo hhi)
  constructor
  · have h3 : lo ≤ min last (clampQ raw lo hi) := le_min hlo h1
    linarith
  · have h3 : max last (clampQ raw lo hi) ≤ hi := max_le hhi h2
    linarith

/-- C5 (amended): whenever the controller's previous output lies within
`[out_min, out_max]` — as holds from the start whenever
`out_min ≤ 0 ≤ out_max`, the initial previous output being 0 — and the
allowed per-call change is nonnegative, the output of `calc` again lies
within `[out_min, out_max]`, for every time, every finite input, every
setpoint and all gain values; `calc` is total, so it never raises. -/
theorem calc_output_in_range (pid : PIDArduino) (now input_val setpoint mac : ℚ)
    (hlo : pid.out_min ≤ pid.lastOutput) (hhi : pid.lastOutput ≤ pid.out_max)
    (hmac : 0 ≤ mac) :
    pid.out_min ≤ (pid.calcFn now input_val setpoint mac).1 ∧
    (pid.calcFn now input_val setpoint mac).1 ≤ pid.out_max := by
  unfold PIDArduino.calcFn
  split
  · exact ⟨hlo, hhi⟩
  · exact rate_limited_in_range pid.lastOutput _ _ _ mac hlo hhi hmac

/-- Witness for C5's amended theorem at the fixture's initial controller. -/
theorem calc_output_in_range_witness :
    (initPID testArgsA).out_min ≤ ((initPID testArgsA).calcFn 5 40 0 1).1 ∧
    ((initPID testArgsA).calcFn 5 40 0 1).1 ≤ (initPID testArgsA).out_max :=
  calc_output_in_range (initPID testArgsA) 5 40 0 1
    (by norm_num [initPID, testArgsA]) (by norm_num [initPID, testArgsA]) (by norm_num)

/-- Like the main fixture but with an output range `[5, 10]` that excludes
the initial previous output 0, and a rate limit giving
`max_allowable_change = 1` per tick. -/
def testArgsB : Args :=
  { testArgsA with out_min := 5, out_max := 10, output_rate_limit := 1/5 }

theorem testArgsB_sampletime_pos : (0:ℚ) < testArgsB.sampletime := by
  norm_num [testArgsB, testArgsA]

theorem numTicks_testArgsB : numTicks testArgsB = 3 := by
  have h : ⌈(12/5 : ℚ)⌉ = 3 := by norm_num [Int.ceil_eq_iff]
  norm_num [numTicks, testArgsB, testArgsA]
  rw [h]
  decide

/-- C5 counterexample: with `out_min = 5`, `out_max = 10`, zero gains and
`max_allowable_change = 1`, the first tick's commanded output is 1, below
`out_min` — rate limiting from the initial previous output 0 escapes the
configured range. -/
theorem calc_output_in_range_cx :
    ¬ testArgsB.out_min ≤ (runSim testArgsB driftPlant pidController (fun _ => 0)
        testArgsB_sampletime_pos 40 (initPID testArgsB)).outputs.getD 0 0 := by
  rw [runSim_eq_runTicks, numTicks_testArgsB]
  norm_num [runTicks, simTick, tickPlant, tickDelayed, tickOut, tickSensed, tickNoise,
    initState, dequeAppend, delayedSamplesLen, pyRound, testArgsB, testArgsA, driftPlant,
    pidController, PIDArduino.calcFn, initPID, clampQ]

/-! ### C6: per-tick output change is rate limited -/

/-- The absolute value of a symmetric clamp is at most the bound. -/
theorem clampQ_abs_le (d mac : ℚ) (hmac : 0 ≤ mac) : |clampQ d (-mac) mac| ≤ mac := by
  rw [abs_le]
  exact ⟨le_max_left _ _, max_le (by linarith) (min_le_left _ _)⟩

/-- One `calc` call moves the output by at most `max_allowable_change` from
the previous output (0 exactly when the sample-time gate returns early). -/
theorem calc_change_bounded (pid : PIDArduino) (now input_val setpoint mac : ℚ)
    (hmac : 0 ≤ mac) :
    |(pid.calcFn now input_val setpoint mac).1 - pid.lastOutput| ≤ mac := by
  unfold PIDArduino.calcFn
  split
  · simpa using hmac
  · rw [add_sub_cancel_left]
    exact clampQ_abs_le _ mac hmac

/-- `calc` always stores the value it returns as the new previous output. -/
theorem calc_updates_lastOutput (pid : PIDArduino) (now input_val setpoint mac : ℚ) :
    ((pid.calcFn now input_val setpoint mac).2).lastOutput
      = (pid.calcFn now input_val setpoint mac).1 := by
  unfold PIDArduino.calcFn
  split <;> rfl

/-- Invariant for the rate-limit property over the recorded outputs:
consecutive outputs differ by at most `mac`, and the controller's stored
previous output is the last recorded output. -/
def RateInv (mac : ℚ) (s : SimState σ PIDArduino) : Prop :=
  (∀ i, i + 1 < s.outputs.length →
    |s.outputs.getD (i + 1) 0 - s.outputs.getD i 0| ≤ mac) ∧
  (0 < s.outputs.length →
    s.ctrlState.lastOutput = s.outputs.getD (s.outputs.length - 1) 0)

/-- One unsuppressed tick with the PID controller preserves `RateInv`. -/
theorem simTick_rate (args : Args) (P : Plant σ) (rng : ℕ → ℚ) (t : ℚ)
    (s : SimState σ PIDArduino) (hsup : args.supress_output = false)
    (hmac : 0 ≤ args.output_rate_limit * args.sampletime)
    (h : RateInv (args.output_rate_limit * args.sampletime) s) :
    RateInv (args.output_rate_limit * args.sampletime)
      (simTick args P pidController rng t s) := by
  obtain ⟨hidx, htrack⟩ := h
  have hout : tickOut args pidController rng t s
      = s.ctrlState.calcFn t (tickSensed args rng s) args.setpoint
        (args.output_rate_limit * args.sampletime) := by
    simp [tickOut, hsup, pidController]
  have hchange : |(tickOut args pidController rng t s).1 - s.ctrlState.lastOutput|
      ≤ args.output_rate_limit * args.sampletime := by
    rw [hout]
    exact calc_change_bounded _ _ _ _ _ hmac
  have hnewtrack : (tickOut args pidController rng t s).2.lastOutput
      = (tickOut args pidController rng t s).1 := by
    rw [hout]
    exact calc_updates_lastOutput _ _ _ _ _
  constructor
  · intro i hi
    simp only [simTick, List.length_append, List.length_singleton] at hi
    simp only [simTick]
    rcases lt_or_eq_of_le (Nat.lt_succ_iff.mp hi) with hlt | heq
    · rw [List.getD_append _ _ _ _ hlt, List.getD_append _ _ _ _ (by omega)]
      exact hidx i hlt
    · rw [List.getD_append_right _ _ _ _ (by omega), List.getD_append _ _ _ _ (by omega)]
      have h0 : i + 1 - s.outputs.length = 0 := by omega
      rw [h0]
      simp only [List.getD_cons_zero]
      have ht := htrack (by omega)
      have hidx0 : s.outputs.length - 1 = i := by omega
      rw [hidx0] at ht
      rw [← ht]
      exact hchange
  · intro _
    simp only [simTick, List.length_append, List.length_singleton, Nat.add_sub_cancel]
    rw [List.getD_append_right _ _ _ _ (le_refl _)]
    simp only [Nat.sub_self, List.getD_cons_zero]
    exact hnewtrack

/-- `RateInv` is preserved by any number of unsuppressed ticks. -/
theorem runTicks_rate (args : Args) (P : Plant σ) (rng : ℕ → ℚ)
    (hsup : args.supress_output = false)
    (hmac : 0 ≤ args.output_rate_limit * args.sampletime) :
    ∀ (n : ℕ) (t : ℚ) (s : SimState σ PIDArduino),
      RateInv (args.output_rate_limit * args.sampletime) s →
      RateInv (args.output_rate_limit * args.sampletime)
        (runTicks args P pidController rng n t s) := by
  intro n
  induction n with
  | zero => intro t s h; simpa [runTicks] using h
  | succ k ih =>
      intro t s h
      simp only [runTicks]
      exact ih (t + args.sampletime) _
        (simTick_rate args P rng (t + args.sampletime) s hsup hmac h)

/-- C6: for every tick `t > 0` the recorded commanded output moves by at
most `output_rate_limit × sample_time` (the `max_allowable_change` handed
to `calc` each call) from the previous tick's output — whether the output
comes from the PID controller or from the suppress branch. -/
theorem output_rate_limited (args : Args) (P : Plant σ) (rng : ℕ → ℚ)
    (hst : 0 < args.sampletime) (p0 : σ)
    (hmac : 0 ≤ args.output_rate_limit * args.sampletime) :
    ∀ i, i + 1 < (runSim args P pidController rng hst p0 (initPID args)).outputs.length →
      |(runSim args P pidController rng hst p0 (initPID args)).outputs.getD (i + 1) 0
        - (runSim args P pidController rng hst p0 (initPID args)).outputs.getD i 0|
        ≤ args.output_rate_limit * args.sampletime := by
  intro i hi
  rcases hsup : args.supress_output with _ | _
  · have h0 : RateInv (args.output_rate_limit * args.sampletime)
        (initState args P p0 (initPID args) : SimState σ PIDArduino) := by
      constructor
      · intro j hj
        simp [initState] at hj
      · intro hpos
        simp [initState] at hpos
    have h := runTicks_rate args P rng hsup hmac (numTicks args) 0
      (initState args P p0 (initPID args)) h0
    rw [runSim_eq_runTicks args P pidController rng hst p0 (initPID args)] at hi ⊢
    exact h.1 i hi
  · obtain ⟨h1, _, _, _⟩ := runTicks_suppressed args P pidController pidController rng
      hsup (numTicks args) 0 (initState args P p0 (initPID args))
    rw [runSim_eq_runTicks args P pidController rng hst p0 (initPID args)] at hi ⊢
    rw [h1] at hi ⊢
    simp only [initState, List.nil_append] at hi ⊢
    have hz : ∀ j, (List.replicate (numTicks args) (0:ℚ)).getD j 0 = 0 := by
      intro j
      rcases lt_or_ge j (numTicks args) with hlt | hge
      · rw [List.getD_eq_getElem _ _ (by simpa using hlt)]
        simp
      · rw [List.getD_eq_default _ _ (by simpa using hge)]
    rw [hz (i + 1), hz i]
    simpa using hmac

/-- Witness for C6 on the fixture run with the restricted range and rate
limit of `testArgsB` (`max_allowable_change = 1`), at tick pair (0, 1). -/
theorem output_rate_limited_witness :
    |(runSim testArgsB driftPlant pidController (fun _ => 0) testArgsB_sampletime_pos
        40 (initPID testArgsB)).outputs.getD 1 0
      - (runSim testArgsB driftPlant pidController (fun _ => 0)
        testArgsB_sampletime_pos 40 (initPID testArgsB)).outputs.getD 0 0|
      ≤ testArgsB.output_rate_limit * testArgsB.sampletime :=
  output_rate_limited testArgsB driftPlant (fun _ => 0) testArgsB_sampletime_pos 40
    (by norm_num [testArgsB, testArgsA]) 0
    (by
      obtain ⟨_, _, h3, _, _⟩ :=
        runTicks_lengths testArgsB driftPlant pidController (fun _ => 0)
          (numTicks testArgsB) 0 (initState testArgsB driftPlant 40 (initPID testArgsB))
      rw [runSim_eq_runTicks, h3, numTicks_testArgsB]
      norm_num [initState])

end SimTools
